import Mathlib

/-!
Shallow embedding of the focus-trap core of this repository:
`packages/@headlessui-vue/src/hooks/use-focus-trap.ts` together with the
`FocusTrap` component of
`packages/@headlessui-vue/src/components/focus-trap/focus-trap.ts`.

DOM elements are modelled by identity as natural numbers.  The surrounding
DOM is a parameter (`Dom`): the `Element.contains` relation and, for the
external Focusable-Traversal collaborator, the ordered list of focusable
descendants of a root.  Vue refs holding `HTMLElement | null` are modelled
as `Option Elem`.  The mutable session state of one `useFocusTrap` call
(`restoreElement`, `previousActiveElement`, `mounted`) plus the global
`document.activeElement` form a `TrapState`; every event handler of the
source becomes a pure function from state to state together with the
observable effects of the event (`preventDefault`, `stopPropagation`, a
thrown error message).
-/

set_option autoImplicit false

/-- A DOM element, identified by a natural number. -/
abbrev Elem := Nat

/-- From use-focus-trap.ts line 17: `None = 1 << 0`. -/
def Features.None : Nat := 1 <<< 0

/-- From use-focus-trap.ts line 20: `InitialFocus = 1 << 1`. -/
def Features.InitialFocus : Nat := 1 <<< 1

/-- From use-focus-trap.ts line 23: `TabLock = 1 << 2`. -/
def Features.TabLock : Nat := 1 <<< 2

/-- From use-focus-trap.ts line 26: `FocusLock = 1 << 3`. -/
def Features.FocusLock : Nat := 1 <<< 3

/-- From use-focus-trap.ts line 29: `RestoreFocus = 1 << 4`. -/
def Features.RestoreFocus : Nat := 1 <<< 4

/-- From use-focus-trap.ts line 32:
`All = InitialFocus | TabLock | FocusLock | RestoreFocus`. -/
def Features.All : Nat :=
  Features.InitialFocus ||| Features.TabLock ||| Features.FocusLock ||| Features.RestoreFocus

/-- Modelled from the spec: the keyboard-code enumeration entry for the Tab
key (the source file `keyboard.ts` is not part of src/; the spec treats the
key enumeration as an external collaborator). -/
def Keys.Tab : String := "Tab"

/-- The ambient DOM, as far as the focus trap consults it: the
`Element.contains` relation (`containsElem a b` means b is a descendant of,
or equal to, a) and the ordered list of focusable descendants of a root, as
the Focusable-Traversal collaborator would enumerate them. -/
structure Dom where
  containsElem : Elem → Elem → Bool
  focusables : Elem → List Elem

/-- Modelled from the spec: the `focusElement` primitive of
`utils/focus-management.ts` (not under src/).  Per spec section 2 it is the
trusted "set focus to element E" action; a null reference is a no-op.
Returns the new globally focused element. -/
def focusElement (el : Option Elem) (focused : Elem) : Elem :=
  match el with
  | some e => e
  | none => focused

/-- A direction request for the Focusable-Traversal collaborator
(spec section 6: First / Last / Next / Previous). -/
inductive Direction
  | first
  | last
  | next
  | previous
deriving DecidableEq

/-- Modelled from the spec: the `focusIn(root, direction)` primitive of
`utils/focus-management.ts` (not under src/).  Spec sections 2 and 6: move
focus to the first/last/next/previous focusable descendant of `root`,
optionally with wrap-around (reaching the end cycles to the start and vice
versa); returns the newly focused element, or `none` for the
`FocusResult.Error` signal when no focusable target exists.  When the
currently focused element is not among the focusables, `next` starts from
the beginning and `previous` from the end. -/
def focusIn (dom : Dom) (root : Elem) (dir : Direction) (wrap : Bool) (focused : Elem) :
    Option Elem :=
  let xs := dom.focusables root
  match dir with
  | Direction.first => xs.get? 0
  | Direction.last => xs.get? (xs.length - 1)
  | Direction.next =>
    match xs.findIdx? (fun x => x = focused) with
    | some i => if wrap then xs.get? ((i + 1) % xs.length) else xs.get? (i + 1)
    | none => xs.get? 0
  | Direction.previous =>
    match xs.findIdx? (fun x => x = focused) with
    | some i =>
      if wrap then xs.get? ((i + xs.length - 1) % xs.length)
      else if i = 0 then none else xs.get? (i - 1)
    | none => xs.get? (xs.length - 1)

/-- The arguments of one `useFocusTrap` call (use-focus-trap.ts lines
35-42): the container ref, the feature bitset, and the options refs
(`initialFocus`, extra `containers`).  Ref values are taken at the moment
an event is handled. -/
structure TrapConfig where
  container : Option Elem
  features : Nat
  initialFocus : Option Elem
  extraContainers : List (Option Elem)
deriving DecidableEq

/-- The mutable state of one trap session: the global
`document.activeElement` (`focused`), and the hook's `restoreElement`,
`previousActiveElement` and `mounted` cells (use-focus-trap.ts lines
43-52). -/
structure TrapState where
  focused : Elem
  restoreElement : Option Elem
  previousActiveElement : Option Elem
  mounted : Bool
deriving DecidableEq

/-- The `contains` helper, use-focus-trap.ts lines 177-183: iterate the
region refs; `container.value?.contains(element)` skips a ref whose element
is unmounted (null) via optional chaining. -/
def contains (dom : Dom) (containers : List (Option Elem)) (element : Elem) : Bool :=
  containers.any fun c =>
    match c with
    | some el => dom.containsElem el element
    | none => false

/-- The allowed-region set built by the focus handler, use-focus-trap.ts
lines 149-150: `new Set(options.containers?.value)` followed by the
unconditional `allContainers.add(container)` of the trap's own container
ref. -/
def allContainers (cfg : TrapConfig) : List (Option Elem) :=
  cfg.extraContainers ++ [cfg.container]

/-- Result of one global focus-change notification: the new session state
and whether the handler called `preventDefault` / `stopPropagation`. -/
structure FocusOutcome where
  state : TrapState
  defaultPrevented : Bool
  propagationStopped : Bool
deriving DecidableEq

/-- The body of the FocusLock handler after its feature and set-size
guards, use-focus-trap.ts lines 154-171: baseline checks on
`previousActiveElement` and `mounted`, then the containment decision on the
event target. -/
def focusLockCore (dom : Dom) (cfg : TrapConfig) (s : TrapState) (target : Option Elem) :
    FocusOutcome :=
  match s.previousActiveElement with
  | none => ⟨s, false, false⟩
  | some previous =>
    if s.mounted = false then ⟨s, false, false⟩
    else
      match target with
      | some toElement =>
        if contains dom (allContainers cfg) toElement = false then
          ⟨{ s with focused := focusElement (some previous) s.focused }, true, true⟩
        else
          ⟨{ s with previousActiveElement := some toElement,
                    focused := focusElement (some toElement) s.focused }, false, false⟩
      | none => ⟨{ s with focused := focusElement s.previousActiveElement s.focused }, false, false⟩

/-- The window `focus` handler (capture phase), use-focus-trap.ts lines
144-174: FocusLock feature guard, allowed-region set construction with the
`if (!allContainers.size) return` check, then `focusLockCore`. -/
def handleFocusEvent (dom : Dom) (cfg : TrapConfig) (s : TrapState) (target : Option Elem) :
    FocusOutcome :=
  if cfg.features &&& Features.FocusLock == 0 then ⟨s, false, false⟩
  else if (allContainers cfg).length == 0 then ⟨s, false, false⟩
  else focusLockCore dom cfg s target

/-- The same handler with the empty-set early return removed, used to state
that the size check is unreachable. -/
def handleFocusEventNoSizeCheck (dom : Dom) (cfg : TrapConfig) (s : TrapState)
    (target : Option Elem) : FocusOutcome :=
  if cfg.features &&& Features.FocusLock == 0 then ⟨s, false, false⟩
  else focusLockCore dom cfg s target

/-- Result of one key-down notification: the new session state and whether
the handler called `preventDefault`. -/
structure KeyOutcome where
  state : TrapState
  defaultPrevented : Bool
deriving DecidableEq

/-- The window `keydown` handler, use-focus-trap.ts lines 125-141: TabLock
feature guard, container guard, Tab-key guard, unconditional
`preventDefault`, then `focusIn` in the Shift-selected direction with
wrap-around; on `FocusResult.Success` the post-move `document.activeElement`
is recorded as `previousActiveElement`. -/
def handleKeyDownEvent (dom : Dom) (cfg : TrapConfig) (s : TrapState) (key : String)
    (shiftKey : Bool) : KeyOutcome :=
  if cfg.features &&& Features.TabLock == 0 then ⟨s, false⟩
  else
    match cfg.container with
    | none => ⟨s, false⟩
    | some c =>
      if key ≠ Keys.Tab then ⟨s, false⟩
      else
        match focusIn dom c (if shiftKey then Direction.previous else Direction.next) true
            s.focused with
        | some newFocused =>
          ⟨{ s with focused := newFocused, previousActiveElement := some newFocused }, true⟩
        | none => ⟨s, true⟩

/-- Result of one run of the initial-focus watcher: an optionally thrown
configuration error (the `throw new Error(...)` of line 114; the state at
the throw point is unchanged, since the throw precedes every assignment)
and the resulting session state. -/
structure InitOutcome where
  thrownError : Option String
  state : TrapState
deriving DecidableEq

/-- The message of the configuration error thrown at use-focus-trap.ts
line 114. -/
def noFocusableElementsMsg : String :=
  "There are no focusable elements inside the <FocusTrap />"

/-- The initial-focus watcher body, use-focus-trap.ts lines 89-121:
InitialFocus feature guard, container guard; if an explicit initial-focus
target exists and is already active, record it; else if there is no
explicit target and focus is already inside the container, record it; else
move focus to the explicit target, or to the first focusable descendant
(throwing the configuration error when none exists), and record the
post-move `document.activeElement`. -/
def handleInitialFocus (dom : Dom) (cfg : TrapConfig) (s : TrapState) : InitOutcome :=
  if cfg.features &&& Features.InitialFocus == 0 then ⟨none, s⟩
  else
    match cfg.container with
    | none => ⟨none, s⟩
    | some c =>
      match cfg.initialFocus with
      | some target =>
        if target = s.focused then ⟨none, { s with previousActiveElement := some s.focused }⟩
        else
          ⟨none, { s with focused := focusElement (some target) s.focused,
                          previousActiveElement := some (focusElement (some target) s.focused) }⟩
      | none =>
        if dom.containsElem c s.focused then
          ⟨none, { s with previousActiveElement := some s.focused }⟩
        else
          match focusIn dom c Direction.first false s.focused with
          | none => ⟨some noFocusableElementsMsg, s⟩
          | some newFocused =>
            ⟨none, { s with focused := newFocused,
                            previousActiveElement := some newFocused }⟩

/-- The arm watcher body, use-focus-trap.ts lines 56-67: the
`newValues.every((value, idx) => prevValues[idx] === value)` guard makes
the reaction edge-triggered (`prevFlag = none` models the immediate first
invocation, whose previous value is not yet recorded); on a transition
with the RestoreFocus flag on, capture `document.activeElement` into
`restoreElement` and set `mounted` to true. -/
def handleArm (prevFlag : Option Bool) (newFlag : Bool) (s : TrapState) : TrapState :=
  if prevFlag = some newFlag then s
  else if newFlag = false then s
  else { s with mounted := true, restoreElement := some s.focused }

/-- The teardown / restore callback registered via `onInvalidate`,
use-focus-trap.ts lines 77-83: a no-op unless `mounted` is true; otherwise
clear `mounted`, focus `restoreElement` and clear it. -/
def handleTeardown (s : TrapState) : TrapState :=
  if s.mounted = false then s
  else { s with mounted := false,
                focused := focusElement s.restoreElement s.focused,
                restoreElement := none }

/-- One process-wide notification delivered to the trap while it is live:
a global focus change (with its target, `none` for a non-element target)
or a key-down event. -/
inductive TrapEvent
  | focusChange (target : Option Elem)
  | keyDown (key : String) (shiftKey : Bool)

/-- Process one notification, keeping only the session state. -/
def stepEvent (dom : Dom) (cfg : TrapConfig) (s : TrapState) : TrapEvent → TrapState
  | TrapEvent.focusChange t => (handleFocusEvent dom cfg s t).state
  | TrapEvent.keyDown k sh => (handleKeyDownEvent dom cfg s k sh).state

/-- Process a sequence of notifications in order. -/
def runEvents (dom : Dom) (cfg : TrapConfig) (s : TrapState) (evs : List TrapEvent) : TrapState :=
  evs.foldl (stepEvent dom cfg) s

/-- The containment invariant on the recorded last-good focus: whenever
`previousActiveElement` holds an element, that element passes the
Containment Oracle check against the allowed-region set. -/
def goodPrev (dom : Dom) (cfg : TrapConfig) (s : TrapState) : Prop :=
  ∀ a, s.previousActiveElement = some a → contains dom (allContainers cfg) a = true

/-- The features argument passed at focus-trap.ts line 35: the expression
`FocusTrap.All`.  The component object defined at focus-trap.ts lines 12-39
has no property named `All`, so this JS property access evaluates to
undefined, modelled as `none`. -/
def focusTrapFeaturesArg : Option Nat := none

/-- Default-parameter resolution of the `features` parameter of
`useFocusTrap` (use-focus-trap.ts line 37): an undefined argument is
replaced by the default `ref(Features.All)`, a fresh ref that is never
written afterwards, so the resolved feature set is a constant. -/
def resolveFeatures (arg : Option Nat) : Nat :=
  match arg with
  | some v => v
  | none => Features.All

/-- Claim C8 counterexample: the claim states that the Features value None
equals 0, but the source declares `None = 1 << 0`, which is 1. -/
theorem features_none_counterexample : ¬ (Features.None = 0) := by
  decide

/-- Claim C8 (amended): the Features value None equals 1 (the bit `1 << 0`,
not 0), All equals the bitwise union of InitialFocus, TabLock, FocusLock
and RestoreFocus, the four feature flags are pairwise-distinct single bits,
and None shares no bit with any feature flag, so membership tests via
bitwise AND behave as set membership over the four flags. -/
theorem features_flag_encoding :
    Features.None = 1 ∧
    Features.All =
      (Features.InitialFocus ||| Features.TabLock ||| Features.FocusLock |||
        Features.RestoreFocus) ∧
    Features.InitialFocus = 2 ∧ Features.TabLock = 4 ∧ Features.FocusLock = 8 ∧
    Features.RestoreFocus = 16 ∧
    Features.InitialFocus &&& Features.TabLock = 0 ∧
    Features.InitialFocus &&& Features.FocusLock = 0 ∧
    Features.InitialFocus &&& Features.RestoreFocus = 0 ∧
    Features.TabLock &&& Features.FocusLock = 0 ∧
    Features.TabLock &&& Features.RestoreFocus = 0 ∧
    Features.FocusLock &&& Features.RestoreFocus = 0 ∧
    Features.None &&& Features.All = 0 ∧
    Features.All &&& Features.InitialFocus ≠ 0 ∧
    Features.All &&& Features.TabLock ≠ 0 ∧
    Features.All &&& Features.FocusLock ≠ 0 ∧
    Features.All &&& Features.RestoreFocus ≠ 0 ∧
    Features.None &&& Features.InitialFocus = 0 ∧
    Features.None &&& Features.TabLock = 0 ∧
    Features.None &&& Features.FocusLock = 0 ∧
    Features.None &&& Features.RestoreFocus = 0 := by
  decide

/-- Claim C9: the `FocusTrap.All` expression passed as the features
argument in `FocusTrap.setup` evaluates to undefined (the component object
has no `All` property), so the default parameter `ref(Features.All)` of
`useFocusTrap` applies and the session runs with all four features enabled;
the default ref is never written, so the feature set is the constant
`Features.All` for the whole session. -/
theorem focus_trap_defaults_to_all_features :
    focusTrapFeaturesArg = none ∧
    resolveFeatures focusTrapFeaturesArg = Features.All ∧
    resolveFeatures focusTrapFeaturesArg &&& Features.InitialFocus ≠ 0 ∧
    resolveFeatures focusTrapFeaturesArg &&& Features.TabLock ≠ 0 ∧
    resolveFeatures focusTrapFeaturesArg &&& Features.FocusLock ≠ 0 ∧
    resolveFeatures focusTrapFeaturesArg &&& Features.RestoreFocus ≠ 0 := by
  decide

/-- Claim C5: restoration idempotence.  Firing the teardown/restore logic
twice moves focus at most once: the first fire with `mounted` true clears
`mounted`, moves focus to the restore target (`focusElement` of
`restoreElement`) and clears `restoreElement`; any subsequent fire, and any
fire on a never-armed session, is a no-op that changes neither focus nor
session state. -/
theorem restoration_idempotence (s : TrapState) (r : Elem) :
    handleTeardown (handleTeardown s) = handleTeardown s ∧
    (s.mounted = false → handleTeardown s = s) ∧
    (s.mounted = true →
      (handleTeardown s).mounted = false ∧
      (handleTeardown s).restoreElement = none ∧
      (handleTeardown s).focused = focusElement s.restoreElement s.focused ∧
      (handleTeardown s).previousActiveElement = s.previousActiveElement) ∧
    (s.mounted = true → s.restoreElement = some r → (handleTeardown s).focused = r) := by
  cases hm : s.mounted
  · simp [handleTeardown, hm, focusElement]
  · simp [handleTeardown, hm, focusElement]
    intro hr
    simp [hr]

/-- Claim C5 witness: the teardown logic evaluated on a concrete armed
session. -/
theorem restoration_idempotence_witness :
    (handleTeardown
        { focused := 0, restoreElement := some 5, previousActiveElement := none,
          mounted := true }).focused = 5 :=
  (restoration_idempotence
      { focused := 0, restoreElement := some 5, previousActiveElement := none,
        mounted := true } 5).2.2.2 rfl rfl

/-- Claim C7: arm edge-triggering.  The restore-target capture is a no-op
when the RestoreFocus flag value is unchanged, and a no-op on an on-to-off
transition; on an off-to-on transition it captures the currently focused
element into `restoreElement` and sets `mounted` true.  Consequently,
toggling the flag on (focused element captured), moving focus to `e2`,
toggling off and back on captures the fresh element `e2`, replacing the
first capture. -/
theorem arm_edge_triggering (b : Bool) (s : TrapState) (e2 : Elem) :
    handleArm (some b) b s = s ∧
    handleArm (some true) false s = s ∧
    handleArm (some false) true s =
      { s with mounted := true, restoreElement := some s.focused } ∧
    (handleArm (some false) true
        (handleArm (some true) false
          { (handleArm none true s) with focused := e2 })).restoreElement = some e2 ∧
    (handleArm (some false) true
        (handleArm (some true) false
          { (handleArm none true s) with focused := e2 })).mounted = true := by
  simp [handleArm]

/-- A concrete DOM used by the witnesses: element 1 is the container,
elements 2 and 3 are its focusable descendants, everything else is outside
it. -/
def witnessDom : Dom where
  containsElem := fun a b => a == 1 && (b == 1 || b == 2 || b == 3)
  focusables := fun c => if c == 1 then [2, 3] else []

/-- A concrete configuration used by the witnesses: container element 1,
all features enabled, no explicit initial-focus target, no extra
containers. -/
def witnessCfg : TrapConfig :=
  { container := some 1, features := Features.All, initialFocus := none,
    extraContainers := [] }

/-- Claim C3: initial focus precedence and sequencing.  With InitialFocus
enabled and a mounted container: (i) an explicit initial-focus target that
already equals the focused element is recorded as `previousActiveElement`
with no focus change; (ii) with no explicit target, a focused element
already inside the container is recorded with no focus change; (iii) an
explicit target that is not currently focused receives focus (regardless
of whether focus is already inside the container) and the newly focused
element is recorded as `previousActiveElement`. -/
theorem initial_focus_precedence (dom : Dom) (cfg : TrapConfig) (s : TrapState) (c : Elem)
    (hf : cfg.features &&& Features.InitialFocus ≠ 0) (hc : cfg.container = some c) :
    (cfg.initialFocus = some s.focused →
      handleInitialFocus dom cfg s =
        ⟨none, { s with previousActiveElement := some s.focused }⟩) ∧
    (cfg.initialFocus = none → dom.containsElem c s.focused = true →
      handleInitialFocus dom cfg s =
        ⟨none, { s with previousActiveElement := some s.focused }⟩) ∧
    (∀ t, cfg.initialFocus = some t → t ≠ s.focused →
      handleInitialFocus dom cfg s =
        ⟨none, { s with focused := t, previousActiveElement := some t }⟩) := by
  have hf' : (cfg.features &&& Features.InitialFocus == 0) = false := by
    simpa using hf
  refine ⟨?_, ?_, ?_⟩
  · intro hif
    simp [handleInitialFocus, hf', hc, hif]
  · intro hif hin
    simp [handleInitialFocus, hf', hc, hif, hin]
  · intro t hif hne
    simp [handleInitialFocus, hf', hc, hif, hne, focusElement]

/-- Claim C3 witness: with container 1, focus on descendant 2 and explicit
initial-focus target 3, activation moves focus to 3 and records it. -/
theorem initial_focus_precedence_witness :
    handleInitialFocus witnessDom
        { container := some 1, features := Features.All, initialFocus := some 3,
          extraContainers := [] }
        { focused := 2, restoreElement := none, previousActiveElement := none,
          mounted := true } =
      ⟨none, { focused := 3, restoreElement := none, previousActiveElement := some 3,
               mounted := true }⟩ :=
  (initial_focus_precedence witnessDom
      { container := some 1, features := Features.All, initialFocus := some 3,
        extraContainers := [] }
      { focused := 2, restoreElement := none, previousActiveElement := none,
        mounted := true }
      1 (by decide) rfl).2.2 3 rfl (by decide)

/-- A DOM whose container (element 1) has zero focusable descendants but
does contain element 2. -/
def emptyContainerDom : Dom where
  containsElem := fun a b => a == 1 && (b == 1 || b == 2)
  focusables := fun _ => []

/-- Configuration with InitialFocus enabled, mounted container 1, and no
explicit initial-focus target. -/
def emptyContainerCfg : TrapConfig :=
  { container := some 1, features := Features.All, initialFocus := none,
    extraContainers := [] }

/-- Session state whose focused element 2 is already inside container 1. -/
def emptyContainerState : TrapState :=
  { focused := 2, restoreElement := none, previousActiveElement := none, mounted := true }

/-- Claim C4 counterexample: with InitialFocus enabled, a mounted container
(element 1) holding zero focusable descendants and no explicit
initial-focus target, but the currently focused element (2) already inside
the container, activation records the focused element and returns without
raising any error — so the claim that such an activation always raises a
configuration error is false. -/
theorem empty_container_counterexample :
    emptyContainerDom.focusables 1 = [] ∧
    emptyContainerCfg.initialFocus = none ∧
    emptyContainerCfg.container = some 1 ∧
    emptyContainerCfg.features &&& Features.InitialFocus ≠ 0 ∧
    handleInitialFocus emptyContainerDom emptyContainerCfg emptyContainerState =
      ⟨none, { emptyContainerState with previousActiveElement := some 2 }⟩ := by
  refine ⟨rfl, rfl, rfl, by decide, rfl⟩

/-- Claim C4 (amended): with InitialFocus enabled, a mounted container
holding zero focusable descendants, no explicit initial-focus target, and
the currently focused element not inside the container, activation raises
the configuration error synchronously (the thrown message is recorded, the
state is unchanged, no focus change happens); with an explicit
initial-focus target supplied, no such error is raised. -/
theorem empty_container_failure (dom : Dom) (cfg : TrapConfig) (s : TrapState) (c : Elem)
    (hf : cfg.features &&& Features.InitialFocus ≠ 0)
    (hc : cfg.container = some c)
    (hempty : dom.focusables c = []) :
    (cfg.initialFocus = none → dom.containsElem c s.focused = false →
      handleInitialFocus dom cfg s = ⟨some noFocusableElementsMsg, s⟩) ∧
    (∀ t, cfg.initialFocus = some t →
      (handleInitialFocus dom cfg s).thrownError = none) := by
  have hf' : (cfg.features &&& Features.InitialFocus == 0) = false := by
    simpa using hf
  refine ⟨?_, ?_⟩
  · intro hif hout
    simp [handleInitialFocus, hf', hc, hif, hout, focusIn, hempty]
  · intro t hif
    by_cases ht : t = s.focused <;>
      simp [handleInitialFocus, hf', hc, hif, ht]

/-- Claim C4 witness: with focus on element 7, outside the empty container
1, activation throws the configuration error and changes nothing. -/
theorem empty_container_failure_witness :
    handleInitialFocus emptyContainerDom emptyContainerCfg
        { focused := 7, restoreElement := none, previousActiveElement := none,
          mounted := false } =
      ⟨some noFocusableElementsMsg,
        { focused := 7, restoreElement := none, previousActiveElement := none,
          mounted := false }⟩ :=
  (empty_container_failure emptyContainerDom emptyContainerCfg
      { focused := 7, restoreElement := none, previousActiveElement := none,
        mounted := false }
      1 (by decide) rfl rfl).1 rfl (by decide)

/-- Claim C6: Tab-key containment.  If TabLock is disabled, or no container
is mounted, or the key is not Tab, the key-down handler changes nothing and
does not suppress the event; otherwise it suppresses the default behavior
unconditionally, requests focus from Focusable-Traversal in the direction
given by the Shift modifier (Previous with Shift, Next without) with
wrap-around enabled, updates `previousActiveElement` to the post-move
focused element exactly when the traversal succeeds, and changes no focus
when no focusable target exists (while still suppressing the event). -/
theorem tab_key_containment (dom : Dom) (cfg : TrapConfig) (s : TrapState) (key : String)
    (shiftKey : Bool) :
    (cfg.features &&& Features.TabLock = 0 →
      handleKeyDownEvent dom cfg s key shiftKey = ⟨s, false⟩) ∧
    (cfg.container = none → handleKeyDownEvent dom cfg s key shiftKey = ⟨s, false⟩) ∧
    (key ≠ Keys.Tab → handleKeyDownEvent dom cfg s key shiftKey = ⟨s, false⟩) ∧
    (∀ c, cfg.features &&& Features.TabLock ≠ 0 → cfg.container = some c → key = Keys.Tab →
      (handleKeyDownEvent dom cfg s key shiftKey).defaultPrevented = true ∧
      (∀ nf,
        focusIn dom c (if shiftKey then Direction.previous else Direction.next) true
            s.focused = some nf →
        (handleKeyDownEvent dom cfg s key shiftKey).state =
          { s with focused := nf, previousActiveElement := some nf }) ∧
      (focusIn dom c (if shiftKey then Direction.previous else Direction.next) true
            s.focused = none →
        (handleKeyDownEvent dom cfg s key shiftKey).state = s)) := by
  refine ⟨?_, ?_, ?_, ?_⟩
  · intro h0
    simp [handleKeyDownEvent, h0]
  · intro hc
    cases h0 : (cfg.features &&& Features.TabLock == 0) <;>
      simp [handleKeyDownEvent, h0, hc]
  · intro hk
    cases h0 : (cfg.features &&& Features.TabLock == 0) <;>
      cases hcont : cfg.container <;>
        simp [handleKeyDownEvent, h0, hcont, hk]
  · intro c hne hc hkey
    have h0 : (cfg.features &&& Features.TabLock == 0) = false := by simpa using hne
    subst hkey
    refine ⟨?_, ?_, ?_⟩
    · cases hfi : focusIn dom c (if shiftKey then Direction.previous else Direction.next) true
          s.focused <;>
        simp [handleKeyDownEvent, h0, hc, hfi]
    · intro nf hnf
      simp [handleKeyDownEvent, h0, hc, hnf]
    · intro hnone
      simp [handleKeyDownEvent, h0, hc, hnone]

/-- Claim C6 witness: in container 1 with focusables [2, 3], Tab pressed
while element 3 (the last focusable) is focused wraps focus around to
element 2 (the first), suppressing the event. -/
theorem tab_key_containment_witness :
    (handleKeyDownEvent witnessDom witnessCfg
        { focused := 3, restoreElement := none, previousActiveElement := some 3,
          mounted := true } "Tab" false).defaultPrevented = true ∧
    (handleKeyDownEvent witnessDom witnessCfg
        { focused := 3, restoreElement := none, previousActiveElement := some 3,
          mounted := true } "Tab" false).state =
      { focused := 2, restoreElement := none, previousActiveElement := some 2,
        mounted := true } :=
  And.intro
    ((tab_key_containment witnessDom witnessCfg
        { focused := 3, restoreElement := none, previousActiveElement := some 3,
          mounted := true } "Tab" false).2.2.2 1 (by decide) rfl rfl).1
    (((tab_key_containment witnessDom witnessCfg
        { focused := 3, restoreElement := none, previousActiveElement := some 3,
          mounted := true } "Tab" false).2.2.2 1 (by decide) rfl rfl).2.1 2 (by decide))

/-- Claim C2: external escape attempt.  With FocusLock enabled: when
`previousActiveElement` records element A and the session is mounted, a
focus-change notification targeting an element B outside all allowed
regions is cancelled (`preventDefault` and `stopPropagation`) and focus is
forced back to A, leaving `previousActiveElement` equal to A; when B passes
the containment check, `previousActiveElement` is updated to B and B is
explicitly refocused; when no `previousActiveElement` is recorded, or the
session is not mounted, the notification is ignored. -/
theorem external_escape_attempt (dom : Dom) (cfg : TrapConfig) (s : TrapState) (a b : Elem)
    (hlock : cfg.features &&& Features.FocusLock ≠ 0) :
    (s.previousActiveElement = some a → s.mounted = true →
      contains dom (allContainers cfg) b = false →
      handleFocusEvent dom cfg s (some b) = ⟨{ s with focused := a }, true, true⟩) ∧
    (s.previousActiveElement = some a → s.mounted = true →
      contains dom (allContainers cfg) b = true →
      handleFocusEvent dom cfg s (some b) =
        ⟨{ s with previousActiveElement := some b, focused := b }, false, false⟩) ∧
    (s.previousActiveElement = none →
      handleFocusEvent dom cfg s (some b) = ⟨s, false, false⟩) ∧
    (s.mounted = false → handleFocusEvent dom cfg s (some b) = ⟨s, false, false⟩) := by
  have hlock' : (cfg.features &&& Features.FocusLock == 0) = false := by
    simpa using hlock
  have hsz : ((allContainers cfg).length == 0) = false := by
    simp [allContainers]
  refine ⟨?_, ?_, ?_, ?_⟩
  · intro hprev hm hcont
    simp [handleFocusEvent, hlock', hsz, focusLockCore, hprev, hm, hcont, focusElement]
  · intro hprev hm hcont
    simp [handleFocusEvent, hlock', hsz, focusLockCore, hprev, hm, hcont, focusElement]
  · intro hprev
    simp [handleFocusEvent, hlock', hsz, focusLockCore, hprev]
  · intro hm
    cases hprev : s.previousActiveElement <;>
      simp [handleFocusEvent, hlock', hsz, focusLockCore, hprev, hm]

/-- Claim C2 witness: with `previousActiveElement` recording element 2
inside container 1 and the session mounted, a focus notification targeting
the outside element 9 is cancelled and focus returns to element 2. -/
theorem external_escape_attempt_witness :
    handleFocusEvent witnessDom witnessCfg
        { focused := 3, restoreElement := none, previousActiveElement := some 2,
          mounted := true } (some 9) =
      ⟨{ focused := 2, restoreElement := none, previousActiveElement := some 2,
         mounted := true }, true, true⟩ :=
  (external_escape_attempt witnessDom witnessCfg
      { focused := 3, restoreElement := none, previousActiveElement := some 2,
        mounted := true } 2 9 (by decide)).1 rfl rfl (by decide)


/-- The Focusable-Traversal result, when it succeeds, is one of the
focusable descendants of the root it was asked about. -/
theorem focusIn_mem (dom : Dom) (root : Elem) (dir : Direction) (wrap : Bool)
    (focused x : Elem) (h : focusIn dom root dir wrap focused = some x) :
    x ∈ dom.focusables root := by
  cases dir <;> simp only [focusIn] at h
  case first => exact List.get?_mem h
  case last => exact List.get?_mem h
  case next =>
    rcases hidx : (dom.focusables root).findIdx? (fun y => y = focused) with _ | i <;>
      simp only [hidx] at h
    · exact List.get?_mem h
    · cases wrap <;> simp only [Bool.false_eq_true, if_false, if_true] at h <;>
        exact List.get?_mem h
  case previous =>
    rcases hidx : (dom.focusables root).findIdx? (fun y => y = focused) with _ | i <;>
      simp only [hidx] at h
    · exact List.get?_mem h
    · cases wrap <;> simp only [Bool.false_eq_true, if_false, if_true] at h
      · by_cases hi : i = 0
        · rw [if_pos hi] at h
          exact absurd h (by simp)
        · rw [if_neg hi] at h
          exact List.get?_mem h
      · exact List.get?_mem h

/-- Every assignment the focus handler makes to `previousActiveElement` is
either no change at all, or an event target that passed the Containment
Oracle check against the allowed-region set. -/
theorem handleFocusEvent_prev (dom : Dom) (cfg : TrapConfig) (s : TrapState) (t : Option Elem) :
    (handleFocusEvent dom cfg s t).state.previousActiveElement = s.previousActiveElement ∨
    ∃ b, t = some b ∧ contains dom (allContainers cfg) b = true ∧
      (handleFocusEvent dom cfg s t).state.previousActiveElement = some b := by
  unfold handleFocusEvent
  split
  · exact Or.inl rfl
  split
  · exact Or.inl rfl
  unfold focusLockCore
  split
  · exact Or.inl rfl
  split
  · exact Or.inl rfl
  split
  · split
    · exact Or.inl rfl
    · rename_i toElement hcond
      exact Or.inr ⟨toElement, rfl, by simpa using hcond, rfl⟩
  · exact Or.inl rfl

/-- Every assignment the key-down handler makes to `previousActiveElement`
is either no change at all, or a focusable descendant of the mounted
container. -/
theorem handleKeyDownEvent_prev (dom : Dom) (cfg : TrapConfig) (s : TrapState) (k : String)
    (sh : Bool) :
    (handleKeyDownEvent dom cfg s k sh).state.previousActiveElement =
      s.previousActiveElement ∨
    ∃ c nf, cfg.container = some c ∧ nf ∈ dom.focusables c ∧
      (handleKeyDownEvent dom cfg s k sh).state.previousActiveElement = some nf := by
  unfold handleKeyDownEvent
  split
  · exact Or.inl rfl
  split
  · exact Or.inl rfl
  rename_i c hc
  split
  · exact Or.inl rfl
  split
  · rename_i nf hnf
    exact Or.inr ⟨c, nf, hc, focusIn_mem dom c _ true s.focused nf hnf, rfl⟩
  · exact Or.inl rfl

/-- If some region ref in the list resolves to an element that contains the
candidate, the Containment Oracle accepts the candidate. -/
theorem contains_of_mem (dom : Dom) (regions : List (Option Elem)) (e x : Elem)
    (hmem : some e ∈ regions) (h : dom.containsElem e x = true) :
    contains dom regions x = true := by
  unfold contains
  rw [List.any_eq_true]
  exact ⟨some e, hmem, h⟩

/-- The trap's own container ref is always a member of the allowed-region
set the focus handler builds. -/
theorem container_mem_allContainers (cfg : TrapConfig) :
    cfg.container ∈ allContainers cfg := by
  simp [allContainers]

/-- One notification preserves the containment property of
`previousActiveElement`. -/
theorem stepEvent_preserves_goodPrev (dom : Dom) (cfg : TrapConfig) (s : TrapState)
    (ev : TrapEvent)
    (hdom : ∀ c x, cfg.container = some c → x ∈ dom.focusables c →
      dom.containsElem c x = true)
    (hs : goodPrev dom cfg s) : goodPrev dom cfg (stepEvent dom cfg s ev) := by
  cases ev with
  | focusChange t =>
    intro a ha
    rcases handleFocusEvent_prev dom cfg s t with h | ⟨b, _, hb, h⟩
    · rw [show (stepEvent dom cfg s (TrapEvent.focusChange t)).previousActiveElement =
          s.previousActiveElement from h] at ha
      exact hs a ha
    · rw [show (stepEvent dom cfg s (TrapEvent.focusChange t)).previousActiveElement =
          some b from h] at ha
      cases Option.some.inj ha
      exact hb
  | keyDown k sh =>
    intro a ha
    rcases handleKeyDownEvent_prev dom cfg s k sh with h | ⟨c, nf, hc, hmem, h⟩
    · rw [show (stepEvent dom cfg s (TrapEvent.keyDown k sh)).previousActiveElement =
          s.previousActiveElement from h] at ha
      exact hs a ha
    · rw [show (stepEvent dom cfg s (TrapEvent.keyDown k sh)).previousActiveElement =
          some nf from h] at ha
      cases Option.some.inj ha
      exact contains_of_mem dom (allContainers cfg) c a
        (hc ▸ container_mem_allContainers cfg) (hdom c a hc hmem)

/-- Claim C1: containment invariant.  For every sequence of focus-change
and key-down notifications handled by a session, if every element recorded
in `previousActiveElement` at the start passes the Containment Oracle check
against the allowed-region set, then it still does after each notification
is handled: the focus handler assigns `previousActiveElement` only to a
target that passed the containment check, and the key-down handler only to
a focusable descendant of the container region, so the recorded last-good
focus never points outside all allowed regions.  (The hypothesis on `dom`
is the DOM fact that the focusable descendants of the container lie inside
it.) -/
theorem containment_invariant (dom : Dom) (cfg : TrapConfig) (s : TrapState)
    (evs : List TrapEvent)
    (hdom : ∀ c x, cfg.container = some c → x ∈ dom.focusables c →
      dom.containsElem c x = true)
    (hs : goodPrev dom cfg s) :
    goodPrev dom cfg (runEvents dom cfg s evs) := by
  induction evs generalizing s with
  | nil => exact hs
  | cons ev rest ih =>
    exact ih (stepEvent dom cfg s ev) (stepEvent_preserves_goodPrev dom cfg s ev hdom hs)

/-- Claim C1 witness: a mounted session that recorded element 2 of
container 1 keeps its recorded element inside the allowed regions across an
escape attempt to the outside element 9 followed by a Tab press. -/
theorem containment_invariant_witness :
    goodPrev witnessDom witnessCfg
      (runEvents witnessDom witnessCfg
        { focused := 2, restoreElement := none, previousActiveElement := some 2,
          mounted := true }
        [TrapEvent.focusChange (some 9), TrapEvent.keyDown "Tab" false]) :=
  containment_invariant witnessDom witnessCfg
    { focused := 2, restoreElement := none, previousActiveElement := some 2,
      mounted := true }
    [TrapEvent.focusChange (some 9), TrapEvent.keyDown "Tab" false]
    (by
      intro c x hc hx
      have hc1 : c = 1 := (Option.some.inj (hc : (some 1 : Option Elem) = some c)).symm
      subst hc1
      have hx2 : x ∈ ([2, 3] : List Elem) := hx
      rcases List.mem_cons.mp hx2 with rfl | hx3
      · decide
      · rcases List.mem_cons.mp hx3 with rfl | hx4
        · decide
        · exact absurd hx4 (List.not_mem_nil x))
    (by
      intro a ha
      have ha2 : a = 2 := (Option.some.inj (ha : (some 2 : Option Elem) = some a)).symm
      subst ha2
      decide)

/-- Claim C10: in the FocusLock focus handler the allowed-region set always
contains the trap's own container ref (added unconditionally), so it is
never empty and the empty-set early return is unreachable — removing it
does not change the handler.  Moreover the Containment Oracle is total:
the empty region list yields false, an unmounted (null) region ref is
skipped rather than failing, and the oracle accepts a candidate exactly
when some resolvable region contains it (hence returns false when no
resolvable region does). -/
theorem focus_lock_set_nonempty_and_contains_total (dom : Dom) (cfg : TrapConfig)
    (s : TrapState) (t : Option Elem) :
    allContainers cfg ≠ [] ∧
    cfg.container ∈ allContainers cfg ∧
    handleFocusEvent dom cfg s t = handleFocusEventNoSizeCheck dom cfg s t ∧
    (∀ x, contains dom [] x = false) ∧
    (∀ rest x, contains dom (none :: rest) x = contains dom rest x) ∧
    (∀ regions x,
      contains dom regions x = true ↔
        ∃ e, some e ∈ regions ∧ dom.containsElem e x = true) := by
  have hsz : ((allContainers cfg).length == 0) = false := by
    simp [allContainers]
  refine ⟨by simp [allContainers], container_mem_allContainers cfg, ?_, ?_, ?_, ?_⟩
  · simp [handleFocusEvent, handleFocusEventNoSizeCheck, hsz]
  · intro x
    rfl
  · intro rest x
    simp [contains]
  · intro regions x
    constructor
    · intro h
      rcases List.any_eq_true.mp h with ⟨r, hr, hp⟩
      cases r with
      | none => exact absurd hp (by simp)
      | some e => exact ⟨e, hr, hp⟩
    · intro h
      rcases h with ⟨e, he, h⟩
      exact contains_of_mem dom regions e x he h
